import Mathlib

set_option maxRecDepth 4000
set_option maxHeartbeats 1000000

/-!
Shallow embedding of the y86 emulator (Go sources `src/model/cpu.go`,
`src/model/parser.go` and the shared ISA utilities) together with theorems
settling the specification claims.

Modelling conventions:
* Go `int64` values are `Int` together with explicit two's-complement
  wrapping (`wrap64`) at every operation where the source can overflow.
* Go `byte` values are `Nat` (kept below 256 by construction; byte
  truncation `% 256` is written wherever the source performs a byte-typed
  shift or conversion).
* Byte-addressed memory is a total function `Nat → Nat`; the register file
  is `Nat → Int`.
* Code that can panic in Go (index out of range, nil-map dispatch,
  integer divide by zero) is modelled in `Option`, where `none` is a panic
  or, for functions whose Go counterpart returns `error`, a returned error;
  places where the two must be distinguished carry an explicit error flag.
-/

namespace Y86

/-- Signed 64-bit two's-complement wrap of an integer. -/
def wrap64 (x : Int) : Int := Int.emod (x + 2 ^ 63) (2 ^ 64) - 2 ^ 63

/-- Unsigned 64-bit pattern of an integer (`uint64` reinterpretation). -/
def toPattern (x : Int) : Nat := (Int.emod x (2 ^ 64)).toNat

/-- Signed reinterpretation of an unsigned 64-bit pattern. -/
def ofPattern (p : Nat) : Int := if p < 2 ^ 63 then (p : Int) else (p : Int) - 2 ^ 64

/-- Bitwise and on `int64` values (Go `b & a`). -/
def land64 (a b : Int) : Int := ofPattern (Nat.land (toPattern a) (toPattern b))

/-- Bitwise xor on `int64` values (Go `b ^ a`). -/
def xor64 (a b : Int) : Int := ofPattern (Nat.xor (toPattern a) (toPattern b))

/-- Go integer division quotient (truncated toward zero), before wrapping. -/
def goQuot (b a : Int) : Int :=
  if (b < 0) = (a < 0) then ((b.natAbs / a.natAbs : Nat) : Int)
  else -((b.natAbs / a.natAbs : Nat) : Int)

/-- Go `%` remainder (sign of the dividend), matching `b - a*(b/a)`. -/
def goRem (b a : Int) : Int := b - a * goQuot b a

/-! Opcode constants from the shared ISA file (`const ( halt byte = iota ... )`). -/

def halt : Nat := 0
def nop : Nat := 1
def rrmovq : Nat := 2
def irmovq : Nat := 3
def rmmovq : Nat := 4
def mrmovq : Nat := 5
def opq : Nat := 6
def jxx : Nat := 7
def call : Nat := 8
def ret : Nat := 9
def pushq : Nat := 10
def popq : Nat := 11

/-! ALU flags (`const ( add byte = iota ... )`). -/

def add : Nat := 0
def sub : Nat := 1
def and : Nat := 2
def xor : Nat := 3
def mul : Nat := 4
def div : Nat := 5
def mod : Nat := 6

/-! Conditional check flags (`le = sub`, `l = and`, `e = xor`, `ne = mul`,
`ge = div`, `g = mod`). -/

def le : Nat := sub
def l : Nat := and
def e : Nat := xor
def ne : Nat := mul
def ge : Nat := div
def g : Nat := mod

/-! Status codes (`const ( aok byte = iota; hlt; adr; ins; dz )`). -/

def aok : Nat := 0
def hlt : Nat := 1
def adr : Nat := 2
def ins : Nat := 3
def dz : Nat := 4

/-- `const maxMem = 0xffff`: the memory array has 65535 cells, 0..65534. -/
def maxMem : Nat := 0xffff

/-- `const numReg = 16`. -/
def numReg : Nat := 16

/-- `const stackPtrReg = 4`. -/
def stackPtrReg : Nat := 4

/-- Output of the fetch stage (`type instReg struct`). -/
structure InstReg where
  opcode : Nat
  fcode : Nat
  rA : Nat
  rB : Nat
  valC : Int
  deriving DecidableEq, Repr

/-- Condition codes (`type cc struct`). -/
structure CC where
  of : Bool
  z : Bool
  s : Bool
  deriving DecidableEq, Repr

/-- Container for the CPU state (`type cpuState struct`). -/
structure CpuState where
  instreg : InstReg
  valP : Int
  valA : Int
  valB : Int
  valE : Int
  valM : Int
  pc : Int
  cc : CC
  status : Nat
  deriving DecidableEq, Repr

/-- The y86 CPU (`type CPU struct`): byte memory, register file, state.
Memory cells and the values stored in them are bytes `0..255`. -/
structure CPU where
  mem : Nat → Nat
  reg : Nat → Int
  state : CpuState

/-- Convert an 8-byte integer to a byte slice in little-endian format
(`intToBytes`): the i-th byte of the two's-complement pattern. -/
def intToBytes (val : Int) : List Nat :=
  (List.range 8).map fun i => toPattern val / 256 ^ i % 256

/-- Extract the little-endian integer from a byte slice (`bytesToInt`).
The Go loop runs from the last byte down, `res = res<<8 | b` on `int64`;
with bytes below 256 the `or` is an addition and the shift wraps. -/
def bytesToInt (bytes : List Nat) : Int :=
  bytes.foldr (fun b res => wrap64 (res * 256 + (b : Int))) 0

/-- Create an instruction register from a byte slice (`createInstReg`).
`none` models a Go panic: indexing `bytes[0]` or `bytes[1]` out of range,
or slicing `bytes[1:8]` / `bytes[2:8]` with fewer than 8 bytes.
Note the source slices take bytes 1..7 (resp. 2..7) only. -/
def createInstReg (bytes : List Nat) : Option InstReg :=
  match bytes with
  | [] => none
  | b0 :: _ =>
    let opcode := Nat.land b0 0xf0 / 16
    let fcode := Nat.land b0 0x0f
    if opcode = halt ∨ opcode = nop ∨ opcode = ret then
      some ⟨opcode, fcode, 0, 0, 0⟩
    else if opcode = jxx ∨ opcode = call then
      if bytes.length < 8 then none
      else some ⟨opcode, fcode, 0, 0, bytesToInt ((bytes.drop 1).take 7)⟩
    else if opcode = irmovq ∨ opcode = rmmovq ∨ opcode = mrmovq then
      if bytes.length < 8 then none
      else
        match bytes with
        | _ :: b1 :: _ =>
          some ⟨opcode, fcode, Nat.land b1 0xf0 / 16, Nat.land b1 0x0f,
            bytesToInt ((bytes.drop 2).take 6)⟩
        | _ => none
    else
      match bytes with
      | _ :: b1 :: _ =>
        some ⟨opcode, fcode, Nat.land b1 0xf0 / 16, Nat.land b1 0x0f, 0⟩
      | _ => none

/-- The `switch opcode` statement of `EncodeInst`, selecting which of the
four candidate encodings is returned; the `default` case is the
"invalid instruction" panic. -/
def encodeSwitch (opcode : Nat) (justIByte iByteAndReg iByteAndConst everything : List Nat) :
    Option (List Nat) :=
  if opcode = halt then some justIByte
  else if opcode = nop then some justIByte
  else if opcode = rrmovq then some iByteAndReg
  else if opcode = irmovq then some everything
  else if opcode = rmmovq then some everything
  else if opcode = mrmovq then some everything
  else if opcode = opq then some iByteAndReg
  else if opcode = jxx then some iByteAndConst
  else if opcode = call then some iByteAndConst
  else if opcode = ret then some justIByte
  else if opcode = pushq then some iByteAndReg
  else if opcode = popq then some iByteAndReg
  else none

/-- Byte slice representation of an instruction (`EncodeInst`).
`none` models the Go panics (`fcode > 6`, unknown opcode).
The four byte-typed parameters are truncated to bytes on entry. -/
def EncodeInst (opcode0 fcode0 rA0 rB0 : Nat) (constant : Int) : Option (List Nat) :=
  let opcode := opcode0 % 256
  let fcode := fcode0 % 256
  let rA := rA0 % 256
  let rB := rB0 % 256
  if fcode > 6 then none
  else
    let iByte := Nat.lor (opcode * 16 % 256) fcode
    let regByte := Nat.lor (rA * 16 % 256) rB
    encodeSwitch opcode [iByte] [iByte, regByte] (iByte :: intToBytes constant)
      (iByte :: regByte :: intToBytes constant)

/-- The instruction-size switch inside `fetch`: Go switches on the WHOLE
byte at `pc` (not its high nibble) against the opcode constants 0..11;
`var size int` leaves `size = 0` when no case matches. -/
def fetchSize (b : Nat) : Nat :=
  if b = halt then 1
  else if b = nop then 1
  else if b = rrmovq then 2
  else if b = irmovq then 10
  else if b = rmmovq then 10
  else if b = mrmovq then 10
  else if b = opq then 2
  else if b = jxx then 9
  else if b = call then 9
  else if b = ret then 1
  else if b = pushq then 2
  else if b = popq then 2
  else 0

/-- Read a sequence of bytes from memory (`readBytesFromMem`); `none` is the
returned error for `addr+size >= maxMem || addr < 0`. -/
def readBytesFromMem (cpu : CPU) (addr : Int) (size : Nat) : Option (List Nat) :=
  if addr + size ≥ (maxMem : Int) ∨ addr < 0 then none
  else some ((List.range size).map fun i => cpu.mem (addr.toNat + i))

/-- Read the little-endian 8-byte int at an address (`readMem`). The guard is
only `addr > maxMem-8`; a negative address reaches `cpu.mem[addr+i]` and
panics (`none`). The accumulation loop is the `bytesToInt` recurrence. -/
def readMem (cpu : CPU) (addr : Int) : Option (CPU × Int) :=
  if addr > (maxMem : Int) - 8 then some ({cpu with state := {cpu.state with status := adr}}, 0)
  else if addr < 0 then none
  else some (cpu, bytesToInt ((List.range 8).map fun i => cpu.mem (addr.toNat + i)))

/-- Write a little-endian 8-byte integer to memory (`writeLongToMem`); an
invalid address only sets the status to `adr`. -/
def writeLongToMem (cpu : CPU) (addr : Int) (val : Int) : CPU :=
  if addr < 0 ∨ addr + 8 > (maxMem : Int) then {cpu with state := {cpu.state with status := adr}}
  else
    {cpu with mem := fun a =>
      (if addr.toNat ≤ a ∧ a < addr.toNat + 8 then toPattern val / 256 ^ (a - addr.toNat) % 256
       else cpu.mem a)}

/-- Write a byte buffer to memory (`writeBytesToMem`); `none` is the returned
error for `addr+len(bytes) >= maxMem || addr < 0`. -/
def writeBytesToMem (cpu : CPU) (addr : Int) (bytes : List Nat) : Option CPU :=
  if addr + bytes.length ≥ (maxMem : Int) ∨ addr < 0 then none
  else
    some {cpu with mem := fun a =>
      (if addr.toNat ≤ a ∧ a < addr.toNat + bytes.length then bytes.getD (a - addr.toNat) 0
       else cpu.mem a)}

/-- Write a value to a register (`writeReg`). -/
def writeReg (cpu : CPU) (index : Nat) (val : Int) : CPU :=
  {cpu with reg := fun j => if j = index then val else cpu.reg j}

/-- The ALU function table (`var alu = map[byte]func...`): `none` is a Go
panic, either the nil-function call for an fcode outside the map or the
runtime divide-by-zero in `/` and `%`. -/
def aluTable (fcode : Nat) (valA valB : Int) : Option Int :=
  if fcode = add then some (wrap64 (valB + valA))
  else if fcode = sub then some (wrap64 (valB - valA))
  else if fcode = and then some (land64 valB valA)
  else if fcode = xor then some (xor64 valB valA)
  else if fcode = mul then some (wrap64 (valB * valA))
  else if fcode = div then (if valA = 0 then none else some (wrap64 (goQuot valB valA)))
  else if fcode = mod then (if valA = 0 then none else some (goRem valB valA))
  else none

/-- The `alu` method: the divide-by-zero guard covers `div` only. -/
def alu (cpu : CPU) (fcode : Nat) (aluA aluB : Int) : Option (CPU × Int) :=
  if fcode = div ∧ aluA = 0 then some ({cpu with state := {cpu.state with status := dz}}, aluB)
  else
    match aluTable fcode aluA aluB with
    | some v => some (cpu, v)
    | none => none

/-- Conditional-jump check (`ccCheck`): note the source's `case g` returns
`!s` while `case ge` returns `!(z || s)`. -/
def ccCheck (cpu : CPU) : CPU × Bool :=
  let fcode := cpu.state.instreg.fcode
  if fcode = 0 then (cpu, true)
  else if fcode = le then (cpu, cpu.state.cc.z || cpu.state.cc.s)
  else if fcode = l then (cpu, cpu.state.cc.s)
  else if fcode = e then (cpu, cpu.state.cc.z)
  else if fcode = ne then (cpu, !cpu.state.cc.z)
  else if fcode = g then (cpu, !cpu.state.cc.s)
  else if fcode = ge then (cpu, !(cpu.state.cc.z || cpu.state.cc.s))
  else ({cpu with state := {cpu.state with status := ins}}, false)

/-- Store the hypothetical next PC in `valP` (`setNextPC`). -/
def setNextPC (cpu : CPU) : CPU :=
  let opcode := cpu.state.instreg.opcode
  if opcode = halt then {cpu with state := {cpu.state with valP := cpu.state.pc + 1}}
  else if opcode = nop then {cpu with state := {cpu.state with valP := cpu.state.pc + 1}}
  else if opcode = rrmovq then {cpu with state := {cpu.state with valP := cpu.state.pc + 2}}
  else if opcode = irmovq then {cpu with state := {cpu.state with valP := cpu.state.pc + 10}}
  else if opcode = rmmovq then {cpu with state := {cpu.state with valP := cpu.state.pc + 10}}
  else if opcode = mrmovq then {cpu with state := {cpu.state with valP := cpu.state.pc + 10}}
  else if opcode = opq then {cpu with state := {cpu.state with valP := cpu.state.pc + 2}}
  else if opcode = jxx then {cpu with state := {cpu.state with valP := cpu.state.pc + 9}}
  else if opcode = call then {cpu with state := {cpu.state with valP := cpu.state.pc + 9}}
  else if opcode = ret then {cpu with state := {cpu.state with valP := cpu.state.pc + 1}}
  else if opcode = pushq then {cpu with state := {cpu.state with valP := cpu.state.pc + 2}}
  else if opcode = popq then {cpu with state := {cpu.state with valP := cpu.state.pc + 2}}
  else {cpu with state := {cpu.state with status := ins}}

/-- Fetch stage (`fetch`). `none` models a panic: indexing `mem[pc]` out of
range, or `createInstReg` panicking (a failed `readBytesFromMem` sets
`status = adr` but then passes the nil slice to `createInstReg`, which
panics unconditionally, so the error path also ends in a panic). -/
def fetch (cpu : CPU) : Option CPU :=
  if cpu.state.pc < 0 ∨ (maxMem : Int) ≤ cpu.state.pc then none
  else
    let size := fetchSize (cpu.mem cpu.state.pc.toNat)
    match readBytesFromMem cpu cpu.state.pc size with
    | none => none
    | some instruction =>
      match createInstReg instruction with
      | none => none
      | some ir => some (setNextPC {cpu with state := {cpu.state with instreg := ir}})

/-- Decode stage (`decode`). -/
def decode (cpu : CPU) : CPU :=
  let ir := cpu.state.instreg
  if ir.opcode = halt then {cpu with state := {cpu.state with status := hlt}}
  else if ir.opcode = nop then cpu
  else if ir.opcode = irmovq ∨ ir.opcode = rrmovq ∨ ir.opcode = rmmovq ∨
      ir.opcode = mrmovq ∨ ir.opcode = jxx ∨ ir.opcode = opq then
    {cpu with state := {cpu.state with valA := cpu.reg ir.rA, valB := cpu.reg ir.rB}}
  else if ir.opcode = call ∨ ir.opcode = ret ∨ ir.opcode = pushq ∨ ir.opcode = popq then
    {cpu with state := {cpu.state with valA := cpu.reg ir.rA, valB := cpu.reg stackPtrReg}}
  else {cpu with state := {cpu.state with status := ins}}

/-- Returns true if both are negative (`areBothNeg`); modelled as the
decidable proposition behind the Go boolean. -/
def areBothNeg (a b : Int) : Prop := a < 0 ∧ b < 0

/-- Returns true if both are positive (`areBothPos`). -/
def areBothPos (a b : Int) : Prop := 0 < a ∧ 0 < b

/-- Returns true if both have the same sign (`areSameSign`). -/
def areSameSign (a b : Int) : Prop := (a < 0) = (b < 0)

instance (a b : Int) : Decidable (areBothNeg a b) :=
  inferInstanceAs (Decidable (a < 0 ∧ b < 0))

instance (a b : Int) : Decidable (areBothPos a b) :=
  inferInstanceAs (Decidable (0 < a ∧ 0 < b))

instance (a b : Int) : Decidable (areSameSign a b) :=
  inferInstanceAs (Decidable ((a < 0) = (b < 0)))

/-- Condition-code update (`updateCC`). Faithful to the source: a zero
`valE` sets `z` and returns; a NEGATIVE `valE` also sets `z` (not `s`);
`s` is assigned only in the `sub` case; nothing is ever cleared except
`of`/`s` inside their cases. -/
def updateCC (cpu : CPU) : CPU :=
  if cpu.state.valE = 0 then
    {cpu with state := {cpu.state with cc := {cpu.state.cc with z := true}}}
  else
    let c :=
      if cpu.state.valE < 0 then
        {cpu with state := {cpu.state with cc := {cpu.state.cc with z := true}}}
      else cpu
    if c.state.instreg.fcode = add then
      {c with state := {c.state with cc := {c.state.cc with
        of := decide (0 < c.state.valE ∧ areBothNeg c.state.valA c.state.valB ∨
          c.state.valE < 0 ∧ areBothPos c.state.valA c.state.valB)}}}
    else if c.state.instreg.fcode = mul then
      {c with state := {c.state with cc := {c.state.cc with
        of := decide (0 < c.state.valE ∧ ¬areSameSign c.state.valA c.state.valB ∨
          c.state.valE < 0 ∧ areSameSign c.state.valA c.state.valB)}}}
    else if c.state.instreg.fcode = sub then
      {c with state := {c.state with cc := {c.state.cc with
        of := decide (0 < c.state.valE ∧ c.state.valB < 0 ∧ 0 < c.state.valA ∨
          c.state.valE < 0 ∧ 0 < c.state.valB ∧ c.state.valA < 0),
        s := decide (c.state.valE < 0)}}}
    else c

/-- Execute stage (`execute`); `none` propagates an ALU panic. -/
def execute (cpu : CPU) : Option CPU :=
  let op := cpu.state.instreg.opcode
  let fcode := cpu.state.instreg.fcode
  if op = rrmovq then
    (alu cpu fcode cpu.state.valA 0).map fun r => {r.1 with state := {r.1.state with valE := r.2}}
  else if op = irmovq then
    (alu cpu fcode cpu.state.instreg.valC 0).map fun r => {r.1 with state := {r.1.state with valE := r.2}}
  else if op = rmmovq ∨ op = mrmovq then
    (alu cpu fcode cpu.state.valB cpu.state.instreg.valC).map fun r => {r.1 with state := {r.1.state with valE := r.2}}
  else if op = opq then
    (alu cpu fcode cpu.state.valA cpu.state.valB).map fun r => updateCC {r.1 with state := {r.1.state with valE := r.2}}
  else if op = call ∨ op = pushq then
    (alu cpu fcode (-8) cpu.state.valB).map fun r => {r.1 with state := {r.1.state with valE := r.2}}
  else if op = ret ∨ op = popq then
    (alu cpu fcode 8 cpu.state.valB).map fun r => {r.1 with state := {r.1.state with valE := r.2}}
  else some cpu

/-- Memory stage (`memory`); `none` propagates the negative-address read
panic from `readMem`. -/
def memoryStage (cpu : CPU) : Option CPU :=
  let op := cpu.state.instreg.opcode
  if op = rmmovq then some (writeLongToMem cpu cpu.state.valE cpu.state.valA)
  else if op = mrmovq then
    (readMem cpu cpu.state.valE).map fun r => {r.1 with state := {r.1.state with valM := r.2}}
  else if op = call then some (writeLongToMem cpu cpu.state.valE cpu.state.valP)
  else if op = ret then
    (readMem cpu cpu.state.valB).map fun r => {r.1 with state := {r.1.state with valM := r.2}}
  else if op = pushq then some (writeLongToMem cpu cpu.state.valE cpu.state.valA)
  else if op = popq then
    (readMem cpu cpu.state.valB).map fun r => {r.1 with state := {r.1.state with valM := r.2}}
  else some cpu

/-- Write-back stage (`writeback`). -/
def writeback (cpu : CPU) : CPU :=
  let ir := cpu.state.instreg
  if ir.opcode = rrmovq then writeReg cpu ir.rB cpu.state.valA
  else if ir.opcode = mrmovq then writeReg cpu ir.rA cpu.state.valM
  else if ir.opcode = call then writeReg cpu stackPtrReg cpu.state.valE
  else if ir.opcode = ret then writeReg cpu stackPtrReg cpu.state.valE
  else if ir.opcode = pushq then writeReg cpu stackPtrReg cpu.state.valE
  else if ir.opcode = popq then
    writeReg (writeReg cpu ir.rA cpu.state.valM) stackPtrReg cpu.state.valE
  else if ir.opcode = opq then writeReg cpu ir.rB cpu.state.valE
  else cpu

/-- PC-update stage (`updatePC`). -/
def updatePC (cpu : CPU) : CPU :=
  let op := cpu.state.instreg.opcode
  if op = ret then {cpu with state := {cpu.state with pc := cpu.state.valM}}
  else if op = call then {cpu with state := {cpu.state with pc := cpu.state.instreg.valC}}
  else if op = jxx then
    let r := ccCheck cpu
    if r.2 then {r.1 with state := {r.1.state with pc := r.1.state.instreg.valC}}
    else {r.1 with state := {r.1.state with pc := r.1.state.valP}}
  else {cpu with state := {cpu.state with pc := cpu.state.valP}}

/-- One clock cycle (`Tick`): fetch, decode, execute, memory, writeback,
updatePC, returning the status. `none` is a Go runtime panic. -/
def tick (cpu : CPU) : Option (CPU × Nat) :=
  (fetch cpu).bind fun c1 =>
    (execute (decode c1)).bind fun c3 =>
      (memoryStage c3).map fun c4 =>
        let c6 := updatePC (writeback c4)
        (c6, c6.state.status)

/-- The tick pipeline after fetch (`Tick` is `fetch` followed by this);
used to drive a prepared instruction register exactly as the repository's
own stage tests do. -/
def stagesAfterFetch (cpu : CPU) : Option CPU :=
  (execute (decode cpu)).bind fun c3 =>
    (memoryStage c3).map fun c4 => updatePC (writeback c4)

/-- The zero-value CPU (`CPU{}`): memory and registers all zero. -/
def initCPU : CPU :=
  ⟨fun _ => 0, fun _ => 0, ⟨⟨0, 0, 0, 0, 0⟩, 0, 0, 0, 0, 0, 0, ⟨false, false, false⟩, 0⟩⟩

/-! The assembler front end (`src/model/parser.go` and the token type). -/

/-- Token kinds (`type TokenType uint8`, `const ( instruction TokenType = iota ... )`). -/
inductive TokenType where
  | instruction
  | reg
  | lparen
  | rparen
  | pos
  | quad
  | num
  | label
  | dir
  | colon
  | comma
  | eof
  deriving DecidableEq, Repr

/-- A lexical unit in the y86 assembly language (`type Token struct`). -/
structure Token where
  tokenType : TokenType
  lex : String
  line : Nat
  col : Nat
  deriving DecidableEq, Repr

/-- Create a new token (`NewToken`). -/
def NewToken (tokType : TokenType) (lex : String) (line col : Nat) : Token :=
  ⟨tokType, lex, line, col⟩

/-- Table of register strings and their numerical values (`registerTable`). -/
def registerTable (s : String) : Option Nat :=
  if s = "%rax" then some 0
  else if s = "%rcx" then some 1
  else if s = "%rdx" then some 2
  else if s = "%rbx" then some 3
  else if s = "%rsp" then some 4
  else if s = "%rbp" then some 5
  else if s = "%rsi" then some 6
  else if s = "%rdi" then some 7
  else if s = "%r8" then some 8
  else if s = "%r9" then some 9
  else if s = "%r10" then some 10
  else if s = "%r11" then some 11
  else if s = "%r12" then some 12
  else if s = "%r13" then some 13
  else if s = "%r14" then some 14
  else if s = "%r15" then some 15
  else none

/-- Maps instruction strings to (opcode, fcode, size) (`instructionTable`).
Faithful to the source, including `divq` being tabulated as fcode 4 (the
same as `mulq`) and `modq` as fcode 5. -/
def instructionTable (s : String) : Option (Nat × Nat × Nat) :=
  if s = "halt" then some (0, 0, 1)
  else if s = "nop" then some (1, 0, 1)
  else if s = "rrmovq" then some (2, 0, 2)
  else if s = "irmovq" then some (3, 0, 10)
  else if s = "rmmovq" then some (4, 0, 10)
  else if s = "mrmovq" then some (5, 0, 10)
  else if s = "addq" then some (6, 0, 2)
  else if s = "subq" then some (6, 1, 2)
  else if s = "andq" then some (6, 2, 2)
  else if s = "xorq" then some (6, 3, 2)
  else if s = "mulq" then some (6, 4, 2)
  else if s = "divq" then some (6, 4, 2)
  else if s = "modq" then some (6, 5, 2)
  else if s = "jmp" then some (7, 0, 9)
  else if s = "jle" then some (7, 1, 9)
  else if s = "jl" then some (7, 2, 9)
  else if s = "je" then some (7, 3, 9)
  else if s = "jne" then some (7, 4, 9)
  else if s = "jge" then some (7, 5, 9)
  else if s = "jg" then some (7, 6, 9)
  else if s = "call" then some (8, 0, 9)
  else if s = "ret" then some (9, 0, 1)
  else if s = "pushq" then some (10, 0, 2)
  else if s = "popq" then some (11, 0, 2)
  else none

/-- Returns true if all the tokens are eof (`IsEof`). -/
def IsEof (tokens : List Token) : Bool :=
  tokens.all fun t => decide (t.tokenType = TokenType.eof)

/-- Matches tokens against expected token types (`IsValidArgs`). -/
def IsValidArgs (args : List Token) (expected : List TokenType) : Bool :=
  if args.length ≠ expected.length ∨ args.length = 0 then false
  else (args.zip expected).all fun q => decide (q.1.tokenType = q.2)

/-- The parser state (`type Parser struct`). The symbol table is a map
`label → address`, the data table a map `address → quadword` (kept in
insertion order), the instruction buffer a plain list of byte vectors
(the source stores NO addresses with the emitted code). -/
structure Parser where
  tokens : List Token
  curr : Nat
  symbolTable : String → Option Int
  dataTable : List (Int × Int)
  instructionBuffer : List (List Nat)
  start : Int
  lc : Int

/-- Create a parser over a token list (`NewParser`). -/
def NewParser (tokens : List Token) : Parser :=
  ⟨tokens, 0, fun _ => none, [], [], 0, 0⟩

/-- Result of a parsing step: the updated parser plus an error flag
(Go methods mutate the receiver and additionally return an `error`;
the flag is that error, while `none` at the `Option` layer is a panic). -/
structure PStep where
  p : Parser
  err : Bool

/-- Map-style update of the data table (later `.quad` at the same address
overwrites, as for a Go map). -/
def upsert (table : List (Int × Int)) (key v : Int) : List (Int × Int) :=
  match table with
  | [] => [(key, v)]
  | (k, x) :: rest => if k = key then (k, v) :: rest else (k, x) :: upsert rest key v

/-- Whether the current token is `eof` (`isAtEnd`); `none` is the panic of
indexing `tokens[curr]` out of range. -/
def isAtEnd (p : Parser) : Option Bool :=
  (p.tokens.get? p.curr).map fun t => decide (t.tokenType = TokenType.eof)

/-- Return the current token and advance (`advance`): the index moves only
when not at end, and the returned token is `tokens[curr-1]` afterwards. -/
def advance (p : Parser) : Option (Parser × Token) :=
  match isAtEnd p with
  | none => none
  | some true =>
    if p.curr = 0 then none
    else (p.tokens.get? (p.curr - 1)).map fun t => (p, t)
  | some false =>
    (p.tokens.get? p.curr).map fun t => ({p with curr := p.curr + 1}, t)

/-- Return the current token without advancing (`peek`); `none` is the
out-of-range panic. -/
def peek (p : Parser) : Option Token :=
  p.tokens.get? p.curr

/-- Hexadecimal/decimal digit value of a character. -/
def digitVal (c : Char) : Option Nat :=
  let n := c.toNat
  if 48 ≤ n ∧ n ≤ 57 then some (n - 48)
  else if 97 ≤ n ∧ n ≤ 102 then some (n - 87)
  else if 65 ≤ n ∧ n ≤ 70 then some (n - 55)
  else none

/-- Accumulator loop behind `digitsToNat`. -/
def digitsToNatAcc (base acc : Nat) : List Char → Option Nat
  | [] => some acc
  | c :: rest =>
    match digitVal c with
    | none => none
    | some d => if d < base then digitsToNatAcc base (acc * base + d) rest else none

/-- Digits of a given base to a number; `none` on an empty or invalid digit
string. -/
def digitsToNat (base : Nat) (cs : List Char) : Option Nat :=
  match cs with
  | [] => none
  | _ => digitsToNatAcc base 0 cs

/-- Models `strconv.ParseInt(lex, 0, 0)` on the literal forms the scanner
produces (optionally signed decimal, and `0x`/`0X` hexadecimal). The Go
call sites discard the returned error with `_`, in which case the parsed
value is 0, so unparsable strings map to 0 here. -/
def parseIntLit (s : String) : Int :=
  match s.data with
  | '-' :: rest => -(parseIntDigits rest)
  | '+' :: rest => parseIntDigits rest
  | cs => parseIntDigits cs
where
  parseIntDigits (cs : List Char) : Int :=
    let val :=
      match cs with
      | '0' :: 'x' :: rest => digitsToNat 16 rest
      | '0' :: 'X' :: rest => digitsToNat 16 rest
      | _ => digitsToNat 10 cs
    match val with
    | some n => (n : Int)
    | none => 0

/-- Handle a `.pos`/`.quad` directive (`parseDirective`). `.pos N` sets the
location counter (and the entry point, when it is still 0 and the next
token is an instruction); `.quad N` records a datum and advances `lc` by 8.
A non-number argument is a returned error. -/
def parseDirective (p : Parser) (token : Token) : Option PStep :=
  match advance p with
  | none => none
  | some (p1, next) =>
    if next.tokenType ≠ TokenType.num then some ⟨p1, true⟩
    else if token.lex = ".pos" then
      let address := parseIntLit next.lex
      let p2o : Option Parser :=
        if p1.start = 0 then
          match peek p1 with
          | none => none
          | some t =>
            some (if t.tokenType = TokenType.instruction then {p1 with start := address} else p1)
        else some p1
      match p2o with
      | none => none
      | some p2 => some ⟨{p2 with lc := address}, false⟩
    else if token.lex = ".quad" then
      let val := parseIntLit next.lex
      some ⟨{p1 with dataTable := upsert p1.dataTable p1.lc val, lc := p1.lc + 8}, false⟩
    else some ⟨p1, false⟩

/-- Copy `src` into `dst` starting at index `i` (Go `copy(dst[i:], src)`:
min-length semantics, remaining entries unchanged). -/
def listCopyAt (dst : List Nat) (i : Nat) (src : List Nat) : List Nat :=
  dst.enum.map fun q => if i ≤ q.1 ∧ q.1 - i < src.length then src.getD (q.1 - i) 0 else q.2

/-- Parse a 1-byte instruction such as halt, nop, ret (`parse1Byte`):
byte 0 is `opcode<<4 | fcode`. -/
def parse1Byte (token : Token) (opcode fcode size : Nat) (p : Parser) : Option PStep :=
  if size = 0 then none
  else
    let instruction := (List.replicate size 0).set 0 (Nat.lor (opcode * 16 % 256) (fcode % 256))
    some ⟨{p with instructionBuffer := p.instructionBuffer ++ [instruction]}, false⟩

/-- Parse a 2-byte register-register instruction (`parse2Byte`). NOTE:
faithful to the source, which assigns `instruction[1] = rA<<4 | rB` but
never assigns `instruction[0]`, leaving it 0. -/
def parse2Byte (token : Token) (opcode fcode size : Nat) (p : Parser) : Option PStep :=
  match advance p with
  | none => none
  | some (p1, a0) =>
    match advance p1 with
    | none => none
    | some (p2, a1) =>
      match advance p2 with
      | none => none
      | some (p3, a2) =>
        let args := [a0, a1, a2]
        if IsEof args then some ⟨p3, true⟩
        else if ¬ IsValidArgs args [TokenType.reg, TokenType.comma, TokenType.reg] then
          some ⟨p3, true⟩
        else
          match registerTable a0.lex, registerTable a2.lex with
          | some rA, some rB =>
            if size ≤ 1 then none
            else
              let instruction :=
                (List.replicate size 0).set 1 (Nat.lor (rA * 16 % 256) (rB % 256))
              some ⟨{p3 with instructionBuffer := p3.instructionBuffer ++ [instruction]}, false⟩
          | _, _ => some ⟨p3, true⟩

/-- Parse `irmovq` (`parseIrmovq`): `[op·f, 0xF·rB, imm…]`, advancing the
location counter by the size. A label immediate is resolved through the
symbol table (0 when absent, as for a Go map read). -/
def parseIrmovq (token : Token) (opcode fcode size : Nat) (p : Parser) : Option PStep :=
  match advance p with
  | none => none
  | some (p1, a0) =>
    match advance p1 with
    | none => none
    | some (p2, a1) =>
      match advance p2 with
      | none => none
      | some (p3, a2) =>
        let args := [a0, a1, a2]
        if IsEof args then some ⟨p3, true⟩
        else if ¬ IsValidArgs args [TokenType.label, TokenType.comma, TokenType.reg] ∧
            ¬ IsValidArgs args [TokenType.num, TokenType.comma, TokenType.reg] then
          some ⟨p3, true⟩
        else if size ≤ 1 then none
        else
          match registerTable a2.lex with
          | none => some ⟨p3, true⟩
          | some rB =>
            let b0 := Nat.lor (opcode * 16 % 256) (fcode % 256)
            let b1 := Nat.lor (0xf * 16 % 256) (rB % 256)
            let bytes := ((List.replicate size 0).set 0 b0).set 1 b1
            let withImm :=
              if a0.tokenType = TokenType.num then
                listCopyAt bytes 2 (intToBytes (parseIntLit a0.lex))
              else if a0.tokenType = TokenType.label then
                listCopyAt bytes 2 (intToBytes ((p3.symbolTable a0.lex).getD 0))
              else bytes
            some ⟨{p3 with
              instructionBuffer := p3.instructionBuffer ++ [withImm],
              lc := p3.lc + (size : Int)}, false⟩

/-- The tail of `parseMrmovq` after its leading-token switch: the four
remaining argument tokens, validation, and emission. -/
def parseMrmovqTail (a0 : Token) (valC : Int) (opcode fcode size : Nat) (pa : Parser) :
    Option PStep :=
  match advance pa with
      | none => none
      | some (pb, a1) =>
        match advance pb with
        | none => none
        | some (pc2, a2) =>
          match advance pc2 with
          | none => none
          | some (pd, a3) =>
            match advance pd with
            | none => none
            | some (pe, a4) =>
              let args := [a0, a1, a2, a3, a4]
              if IsEof args then some ⟨pe, true⟩
              else if ¬ IsValidArgs args
                  [TokenType.lparen, TokenType.reg, TokenType.rparen,
                   TokenType.comma, TokenType.reg] then
                some ⟨pe, true⟩
              else if size ≤ 1 then none
              else
                let rB := (registerTable a1.lex).getD 0
                let rA := (registerTable a4.lex).getD 0
                let b0 := Nat.lor (opcode * 16 % 256) (fcode % 256)
                let b1 := Nat.lor (rA * 16 % 256) (rB % 256)
                let bytes :=
                  listCopyAt (((List.replicate size 0).set 0 b0).set 1 b1) 2
                    (intToBytes valC)
                some ⟨{pe with
                  instructionBuffer := pe.instructionBuffer ++ [bytes],
                  lc := pe.lc + (size : Int)}, false⟩

/-- Parse `mrmovq` (`parseMrmovq`): `imm(rB), rA` or `(rB), rA` (offset 0).
Register lookups here use the zero value on a missing key, as the source
does. A leading `eof` or unexpected token is a returned error. -/
def parseMrmovq (token : Token) (opcode fcode size : Nat) (p : Parser) : Option PStep :=
  match advance p with
  | none => none
  | some (p1, t0) =>
    if t0.tokenType = TokenType.lparen then parseMrmovqTail t0 0 opcode fcode size p1
    else if t0.tokenType = TokenType.num then
      match advance p1 with
      | none => none
      | some (p2, t0n) => parseMrmovqTail t0n (parseIntLit t0.lex) opcode fcode size p2
    else some ⟨p1, true⟩

/-- Dispatch an instruction token (`parseInstruction`): look up the
mnemonic's (opcode, fcode, size) and call the encoder registered for the
opcode. `none` models the panics of indexing a nil table entry and of
calling the nil function for opcodes absent from `parseDispatchTable`
(only halt, nop, opq, irmovq and mrmovq are registered). -/
def parseInstruction (p : Parser) (token : Token) : Option PStep :=
  match instructionTable token.lex with
  | none => none
  | some info =>
    let opcode := info.1
    let fcode := info.2.1
    let size := info.2.2
    if opcode = halt ∨ opcode = nop then parse1Byte token opcode fcode size p
    else if opcode = opq then parse2Byte token opcode fcode size p
    else if opcode = irmovq then parseIrmovq token opcode fcode size p
    else if opcode = mrmovq then parseMrmovq token opcode fcode size p
    else none

/-- One fuel-bounded run of the first-pass loop (`firstPass`): build the
symbol table and advance `lc`; a directive error aborts the pass. -/
def firstPassAux : Nat → Parser → Option PStep
  | 0, _ => none
  | fuel + 1, p =>
    match isAtEnd p with
    | none => none
    | some true => some ⟨p, false⟩
    | some false =>
      match advance p with
      | none => none
      | some (p1, tok) =>
        if tok.tokenType = TokenType.dir then
          match parseDirective p1 tok with
          | none => none
          | some ⟨p2, true⟩ => some ⟨p2, true⟩
          | some ⟨p2, false⟩ => firstPassAux fuel p2
        else if tok.tokenType = TokenType.instruction then
          match instructionTable tok.lex with
          | none => none
          | some info => firstPassAux fuel {p1 with lc := p1.lc + (info.2.2 : Int)}
        else if tok.tokenType = TokenType.label then
          match peek p1 with
          | none => none
          | some nt =>
            let p2 :=
              if nt.tokenType = TokenType.colon then
                {p1 with symbolTable := fun s =>
                  if s = tok.lex then some p1.lc else p1.symbolTable s}
              else p1
            firstPassAux fuel p2
        else firstPassAux fuel p1

/-- The first pass (`firstPass`): on normal exit `curr` is reset to 0 (an
early error return skips the reset). The fuel exceeds the number of loop
iterations, which consume at least one token each. -/
def firstPass (p : Parser) : Option PStep :=
  match firstPassAux (p.tokens.length + 2) p with
  | none => none
  | some ⟨p1, true⟩ => some ⟨p1, true⟩
  | some ⟨p1, false⟩ => some ⟨{p1 with curr := 0}, false⟩

/-- One fuel-bounded run of the second-pass loop (`secondPass`): emit
machine code; errors from the directive and instruction handlers are
DISCARDED (the source ignores their return values), and the pass itself
never returns an error. -/
def secondPassAux : Nat → Parser → Option Parser
  | 0, _ => none
  | fuel + 1, p =>
    match isAtEnd p with
    | none => none
    | some true => some p
    | some false =>
      match advance p with
      | none => none
      | some (p1, tok) =>
        if tok.tokenType = TokenType.dir then
          match parseDirective p1 tok with
          | none => none
          | some ⟨p2, _⟩ => secondPassAux fuel p2
        else if tok.tokenType = TokenType.instruction then
          match parseInstruction p1 tok with
          | none => none
          | some ⟨p2, _⟩ => secondPassAux fuel p2
        else secondPassAux fuel p1

/-- The second pass (`secondPass`). -/
def secondPass (p : Parser) : Option Parser :=
  secondPassAux (p.tokens.length + 2) p

/-- `Parse`: run both passes (the second runs even if the first failed);
the reported error is the first pass's. -/
def parse (p : Parser) : Option (Parser × Bool) :=
  match firstPass p with
  | none => none
  | some ⟨p1, e1⟩ =>
    match secondPass p1 with
    | none => none
    | some p2 => some (p2, e1)

/-- `setEntryPoint`: point `pc` at the program start. -/
def setEntryPoint (p : Parser) (cpu : CPU) : CPU :=
  {cpu with state := {cpu.state with pc := p.start}}

/-- `loadData`: write every data-table quadword. Go iterates the map in
unspecified order; modelled in table order. -/
def loadData (p : Parser) (cpu : CPU) : CPU :=
  p.dataTable.foldl (fun c kv => writeLongToMem c kv.1 kv.2) cpu

/-- The loop of `loadInstructions`: copy the byte vectors CONTIGUOUSLY,
each at the address following the previous one, starting from `address`;
the boolean is the returned error (the load stops at the first failed
write). The buffer carries no addresses of its own. -/
def loadInstructionsAux (cpu : CPU) (address : Int) : List (List Nat) → CPU × Bool
  | [] => (cpu, false)
  | bytes :: rest =>
    match writeBytesToMem cpu address bytes with
    | none => (cpu, true)
    | some c1 => loadInstructionsAux c1 (address + (bytes.length : Int)) rest

/-- `loadInstructions`: the copy loop starts at `cpu.state.pc`. -/
def loadInstructions (p : Parser) (cpu : CPU) : CPU × Bool :=
  loadInstructionsAux cpu cpu.state.pc p.instructionBuffer

/-- `LoadCPU`: set the entry point, load the data table, then the
instruction buffer (whose error the source discards). -/
def LoadCPU (p : Parser) (cpu : CPU) : CPU :=
  (loadInstructions p (loadData p (setEntryPoint p cpu))).1

/-- Sum of the byte lengths of the first `k` instruction groups: the offset
at which the loader places group `k`. -/
def groupOffset (buf : List (List Nat)) (k : Nat) : Nat :=
  ((buf.take k).map List.length).sum

/-- The token list of `addq %rax, %rcx` after the mnemonic token. -/
def tokensC4 : List Token :=
  [⟨TokenType.reg, "%rax", 1, 6⟩, ⟨TokenType.comma, ",", 1, 10⟩,
   ⟨TokenType.reg, "%rcx", 1, 12⟩, ⟨TokenType.eof, "", 1, 16⟩]

/-- Token list of the program `nop` / `.pos 5` / `halt` / `.pos 0`:
the second pass emits nop at location counter 0 and halt at 5, with the
entry point at 5. -/
def tokensC9 : List Token :=
  [⟨TokenType.instruction, "nop", 1, 1⟩,
   ⟨TokenType.dir, ".pos", 2, 1⟩, ⟨TokenType.num, "5", 2, 6⟩,
   ⟨TokenType.instruction, "halt", 3, 1⟩,
   ⟨TokenType.dir, ".pos", 4, 1⟩, ⟨TokenType.num, "0", 4, 6⟩,
   ⟨TokenType.eof, "", 4, 7⟩]

/-- Claim C4: the claim says an ALU instruction is emitted as
`[0x60 | fcode, rA·rB]` with `div = 5`, `mod = 6`. Assembling
`addq %rax, %rcx` emits `[0x00, 0x01]`: `parse2Byte` never assigns byte 0
(the claim wants `0x60`); and the instruction table gives `divq` fcode 4
(identical to `mulq`) and `modq` fcode 5, not 5 and 6. -/
theorem claim4_parse2Byte_byte0_and_fcodes :
    ((parse2Byte ⟨TokenType.instruction, "addq", 1, 1⟩ 6 0 2 (NewParser tokensC4)).map
        fun r => (r.p.instructionBuffer, r.err)) = some ([[0x00, 0x01]], false) ∧
    instructionTable "addq" = some (6, 0, 2) ∧
    instructionTable "divq" = some (6, 4, 2) ∧
    instructionTable "modq" = some (6, 5, 2) :=
  ⟨rfl, rfl, rfl, rfl⟩

/-- Claim C9 counterexample: for the program `nop / .pos 5 / halt / .pos 0`
the second pass emits nop at location counter 0 and halt at 5; the claim
says the loaded image has the nop byte `0x10` in `[0,1)` and the halt byte
`0x00` in `[5,6)`. The loader instead copies both groups contiguously from
the entry point 5: memory byte 0 stays 0 and byte 5 holds `0x10`. -/
theorem claim9_counterexample_pos_gap_collapsed :
    ((parse (NewParser tokensC9)).map fun r =>
      (r.1.start, r.1.instructionBuffer, r.2)) = some (5, [[0x10], [0x00]], false) ∧
    ((parse (NewParser tokensC9)).map fun r =>
      (let c := LoadCPU r.1 initCPU
       (c.mem 0, c.mem 5, c.mem 6, c.state.pc))) = some (0, 0x10, 0, 5) :=
  ⟨rfl, rfl⟩

/-- A successful `writeBytesToMem` means the address was nonnegative and
memory became the written window over the old contents. -/
theorem writeBytesToMem_some {c : CPU} {a : Int} {g : List Nat} {c1 : CPU}
    (hw : writeBytesToMem c a g = some c1) :
    0 ≤ a ∧ ∀ x : Nat, c1.mem x =
      if a.toNat ≤ x ∧ x < a.toNat + g.length then g.getD (x - a.toNat) 0 else c.mem x := by
  unfold writeBytesToMem at hw
  split at hw
  · simp at hw
  · rename_i hc
    injection hw with hw
    subst hw
    exact ⟨by omega, fun x => rfl⟩

/-- The instruction-copy loop never touches memory below its starting
address. -/
theorem loadInstructionsAux_mem_below (gs : List (List Nat)) :
    ∀ (c : CPU) (a : Int), (loadInstructionsAux c a gs).2 = false →
    ∀ x : Nat, (x : Int) < a → (loadInstructionsAux c a gs).1.mem x = c.mem x := by
  induction gs with
  | nil => intro c a _ x _; rfl
  | cons g rest ih =>
    intro c a h x hx
    simp only [loadInstructionsAux] at h ⊢
    cases hw : writeBytesToMem c a g with
    | none => rfl
    | some c1 =>
      rw [hw] at h
      have h2 : (loadInstructionsAux c1 (a + (g.length : Int)) rest).2 = false := h
      obtain ⟨ha, hmem⟩ := writeBytesToMem_some hw
      have hx2 : (x : Int) < a + (g.length : Int) := by omega
      show (loadInstructionsAux c1 (a + (g.length : Int)) rest).1.mem x = c.mem x
      rw [ih c1 (a + g.length) h2 x hx2, hmem x, if_neg (by omega)]

/-- Claim C9 amended: the loader ignores the second pass's location
counters; it copies the instruction-buffer groups CONTIGUOUSLY from the
starting address, group `k` at offset `groupOffset buf k` (the summed
lengths of the earlier groups), so `.pos` gaps between instructions are
collapsed. -/
theorem claim9_amended_loader_contiguous (gs : List (List Nat)) :
    ∀ (c : CPU) (a : Int), (loadInstructionsAux c a gs).2 = false →
    ∀ k (hk : k < gs.length) i (hi : i < (gs.get ⟨k, hk⟩).length),
      (loadInstructionsAux c a gs).1.mem (a.toNat + groupOffset gs k + i) =
        (gs.get ⟨k, hk⟩).getD i 0 := by
  induction gs with
  | nil => intro c a h k hk; simp at hk
  | cons g rest ih =>
    intro c a h k hk i hi
    simp only [loadInstructionsAux] at h ⊢
    cases hw : writeBytesToMem c a g with
    | none =>
      rw [hw] at h
      exact absurd h (by simp)
    | some c1 =>
      rw [hw] at h
      have h2 : (loadInstructionsAux c1 (a + (g.length : Int)) rest).2 = false := h
      obtain ⟨ha, hmem⟩ := writeBytesToMem_some hw
      have hrest : ∀ y : Nat,
          (loadInstructionsAux c a (g :: rest)).1.mem y =
          (loadInstructionsAux c1 (a + (g.length : Int)) rest).1.mem y := by
        intro y
        simp only [loadInstructionsAux]
        rw [hw]
      cases k with
      | zero =>
        have hg : (g :: rest).get ⟨0, hk⟩ = g := rfl
        rw [hg] at hi ⊢
        have hoff : groupOffset (g :: rest) 0 = 0 := rfl
        rw [hoff]
        have hpos : ((a.toNat + 0 + i : Nat) : Int) < a + (g.length : Int) := by omega
        show (loadInstructionsAux c1 (a + (g.length : Int)) rest).1.mem (a.toNat + 0 + i) =
          g.getD i 0
        rw [loadInstructionsAux_mem_below rest c1 (a + g.length) h2 _ hpos]
        rw [hmem, if_pos (by omega)]
        congr 1
        omega
      | succ k2 =>
        have hk2 : k2 < rest.length := by simpa using hk
        have hi2 : i < (rest.get ⟨k2, hk2⟩).length := by simpa using hi
        have hgo : groupOffset (g :: rest) (k2 + 1) = g.length + groupOffset rest k2 := by
          simp [groupOffset, List.take_succ_cons]
        have key := ih c1 (a + g.length) h2 k2 hk2 i hi2
        have hpos : a.toNat + groupOffset (g :: rest) (k2 + 1) + i =
            (a + (g.length : Int)).toNat + groupOffset rest k2 + i := by
          rw [hgo]; omega
        rw [hpos]
        have hget : (g :: rest).get ⟨k2 + 1, hk⟩ = rest.get ⟨k2, hk2⟩ := rfl
        rw [hget]
        exact key

/-- Witness for the amended claim C9: loading the two groups `[16]` and
`[7]` from address 5 places the second group's byte at 5 + 1 = 6. -/
theorem claim9_amended_witness :
    (loadInstructionsAux initCPU 5 [[16], [7]]).1.mem 6 = 7 := by
  exact claim9_amended_loader_contiguous [[16], [7]] initCPU 5 rfl 1 (by decide) 0 (by decide)

/-! Concrete machine configurations used by the claim theorems. -/

/-- A machine whose next instruction byte is `0x61`, the encoding of
`subq` (opcode 6, fcode 1). -/
def cpu61 : CPU := {initCPU with mem := fun a => if a = 0 then 0x61 else 0}

/-- A machine about to run `modq %rcx, %rdx` with `%rcx = 0`, `%rdx = 10`:
instruction register `opq`/`mod`, rA = 1, rB = 2. -/
def cpuModZero : CPU :=
  {initCPU with
    reg := fun i => if i = 2 then 10 else 0,
    state := {initCPU.state with instreg := ⟨opq, mod, 1, 2, 0⟩}}

/-- A machine about to run `addq %rcx, %rdx` with `%rcx = 0`, `%rdx = -1`. -/
def cpu3 : CPU :=
  {initCPU with
    reg := fun i => if i = 2 then -1 else 0,
    state := {initCPU.state with instreg := ⟨opq, add, 1, 2, 0⟩}}

/-- A machine about to run `popq %rcx` with `%rsp = 65530` (so the 8-byte
stack read crosses the end of memory) and `%rcx = 42`. -/
def cpu5 : CPU :=
  {initCPU with
    reg := fun i => if i = 1 then 42 else if i = 4 then 65530 else 0,
    state := {initCPU.state with instreg := ⟨popq, 0, 1, 15, 0⟩}}

/-- A `jge` (fcode 5) about to be resolved with `z = true`, `s = false`. -/
def cpu7a : CPU :=
  {initCPU with state := {initCPU.state with
    instreg := ⟨jxx, ge, 0, 0, 0⟩, cc := ⟨false, true, false⟩}}

/-- A `jg` (fcode 6) about to be resolved with `z = true`, `s = false`. -/
def cpu7b : CPU :=
  {initCPU with state := {initCPU.state with
    instreg := ⟨jxx, g, 0, 0, 0⟩, cc := ⟨false, true, false⟩}}

/-- Claim C1: the claim says every failure completes the tick with a status
code and `Tick` never panics. The code panics: with the `subq` byte `0x61`
at `pc`, `fetch` computes size 0 (the size switch matches whole bytes, not
opcodes) and `createInstReg` indexes the empty slice; and an `opq` with
fcode `mod` and `valA = 0` reaches Go's `%` with a zero divisor because the
`alu` method's guard covers `div` only. Both runs are modelled as `none`. -/
theorem claim1_tick_panics :
    tick cpu61 = none ∧ stagesAfterFetch cpuModZero = none :=
  ⟨rfl, rfl⟩

/-- Claim C2: the claim says fetch selects the instruction length from the
HIGH NIBBLE of the byte at `pc`, e.g. size 2 for `0x61` (subq) and size 9
for `0x74` (jne). The code compares the whole byte against the opcode
constants 0..11, so all three bytes below (subq, jne, and even the real
encoding `0x10` of nop) fall through to size 0. -/
theorem claim2_fetchSize_ignores_low_nibble :
    fetchSize 0x61 = 0 ∧ fetchSize 0x74 = 0 ∧ fetchSize 0x10 = 0 := by
  decide

/-- Claim C3: the claim says after any `opq`, `z = (valE == 0)` and
`s = (valE < 0)`. Running `addq %rcx, %rdx` with `%rcx = 0`, `%rdx = -1`
produces `valE = -1`, and the code sets `z = true` (the negative branch of
`updateCC` assigns `z`, not `s`) and leaves `s = false` (only the `sub`
case ever assigns `s`): exactly the opposite of the claim. -/
theorem claim3_updateCC_sets_z_on_negative :
    ((execute (decode cpu3)).map fun r => (r.state.valE, r.state.cc.z, r.state.cc.s)) =
      some (-1, true, false) :=
  rfl

/-- Claim C5 counterexample: the claim says a tick executing `popq` whose
address faults modifies no register. On `cpu5` the stack read at 65530
faults (`status = adr`, `valM = 0`), but write-back still runs: `%rcx`
(which held 42) is overwritten with 0 and `%rsp` with `valE = 65538`. -/
theorem claim5_counterexample_popq_fault_writes_regs :
    ((stagesAfterFetch cpu5).map fun r => (r.state.status, r.reg 1, r.reg 4)) =
      some (adr, 0, 65538) ∧ cpu5.reg 1 = 42 :=
  ⟨rfl, rfl⟩

/-- Claim C5 amended: a memory WRITE whose 8-byte window leaves
`[0, 65535]` sets `status = adr` and changes nothing else, and a READ from
a nonnegative faulting address does the same (negative read addresses are
unchecked and crash); the faulting access itself touches no register, but
the tick's write-back stage still runs afterwards. -/
theorem claim5_amended_faulting_access_pure (cpu : CPU) (addr val : Int)
    (h : addr < 0 ∨ addr + 8 > 65536) :
    writeLongToMem cpu addr val = {cpu with state := {cpu.state with status := adr}} ∧
    (0 ≤ addr → readMem cpu addr = some ({cpu with state := {cpu.state with status := adr}}, 0)) := by
  constructor
  · have hc : addr < 0 ∨ addr + 8 > (maxMem : Int) := by simp only [maxMem]; omega
    unfold writeLongToMem
    rw [if_pos hc]
  · intro h0
    have hc : addr > (maxMem : Int) - 8 := by simp only [maxMem]; omega
    unfold readMem
    rw [if_pos hc]

/-- Witness for the amended claim C5 at the concrete faulting address
65530 (window 65530..65537 leaves memory). -/
theorem claim5_amended_witness :
    writeLongToMem initCPU 65530 7 = {initCPU with state := {initCPU.state with status := adr}} ∧
    readMem initCPU 65530 = some ({initCPU with state := {initCPU.state with status := adr}}, 0) := by
  have h := claim5_amended_faulting_access_pure initCPU 65530 7 (by norm_num)
  exact ⟨h.1, h.2 (by norm_num)⟩

/-- Claim C6: the claim says `valC` is decoded from all 8 immediate bytes
(bytes 2..9 of irmovq, 1..8 of jxx/call), so 8 bytes of `0xFF` give -1.
The code slices `bytes[2:8]` (6 bytes) and `bytes[1:8]` (7 bytes), so the
same encodings decode to `2^48 - 1` and `2^56 - 1` instead. -/
theorem claim6_valC_drops_top_bytes :
    createInstReg (0x30 :: 0xF2 :: List.replicate 8 0xFF) =
      some ⟨irmovq, 0, 15, 2, 281474976710655⟩ ∧
    createInstReg (0x70 :: List.replicate 8 0xFF) =
      some ⟨jxx, 0, 0, 0, 72057594037927935⟩ :=
  ⟨rfl, rfl⟩

/-- Claim C7: the claim maps fcode 5 (`ge`) to a predicate equivalent to
`¬s` and fcode 6 (`g`) to `¬z ∧ ¬s`. With `z = true, s = false` the claim
therefore takes a `jge` and falls through a `jg`; the code does the exact
opposite (its `case ge` returns `!(z || s)` and `case g` returns `!s`). -/
theorem claim7_ccCheck_ge_g_swapped :
    (ccCheck cpu7a).2 = false ∧ (ccCheck cpu7b).2 = true ∧
    cpu7a.state.instreg.fcode = ge ∧ cpu7b.state.instreg.fcode = g ∧
    cpu7a.state.cc.z = true ∧ cpu7a.state.cc.s = false ∧
    cpu7b.state.cc.z = true ∧ cpu7b.state.cc.s = false :=
  ⟨rfl, rfl, rfl, rfl, rfl, rfl, rfl, rfl⟩

/-- Claim C8: the claim says `div` OR `mod` with divisor 0 sets
`status = DZ` and yields `valE = valB`. The `alu` method's guard tests
`fcode == div` only, so `div` by zero indeed sets `dz` and returns `valB`
unchanged, but `mod` by zero reaches Go's `%` and panics (`none`). -/
theorem claim8_mod_zero_panics_div_zero_dz :
    alu initCPU mod 0 10 = none ∧
    alu initCPU div 0 10 = some ({initCPU with state := {initCPU.state with status := dz}}, 10) :=
  ⟨rfl, rfl⟩

/-- The opcode switch succeeds on every opcode 0..11. -/
theorem encodeSwitch_isSome (oc : Nat) (h : oc ≤ 11) (v1 v2 v3 v4 : List Nat) :
    (encodeSwitch oc v1 v2 v3 v4).isSome = true := by
  interval_cases oc <;> rfl

/-- The opcode switch reaches the panicking default case above opcode 11. -/
theorem encodeSwitch_none (oc : Nat) (h : 11 < oc) (v1 v2 v3 v4 : List Nat) :
    encodeSwitch oc v1 v2 v3 v4 = none := by
  unfold encodeSwitch
  split_ifs <;>
    first
      | rfl
      | simp_all [halt, nop, rrmovq, irmovq, rmmovq, mrmovq, opq, jxx, call, ret, pushq, popq]

/-- Claim C10: `EncodeInst` panics whenever `fcode > 6` regardless of the
opcode; for `fcode ≤ 6` it accepts every opcode 0..11 (e.g. halt with
fcode 3 encodes as the single byte `0x03`) and panics exactly for larger
opcodes. -/
theorem claim10_encodeInst_gates (opcode fcode rA rB : Nat) (c : Int)
    (hop : opcode < 256) (hf : fcode < 256) :
    (6 < fcode → EncodeInst opcode fcode rA rB c = none) ∧
    (fcode ≤ 6 → opcode ≤ 11 → (EncodeInst opcode fcode rA rB c).isSome = true) ∧
    (fcode ≤ 6 → 11 < opcode → EncodeInst opcode fcode rA rB c = none) ∧
    EncodeInst halt 3 0 0 0 = some [3] := by
  have e1 : opcode % 256 = opcode := Nat.mod_eq_of_lt hop
  have e2 : fcode % 256 = fcode := Nat.mod_eq_of_lt hf
  refine ⟨?_, ?_, ?_, rfl⟩
  · intro h
    simp only [EncodeInst, e1, e2]
    rw [if_pos (show fcode > 6 from h)]
  · intro h6 h11
    simp only [EncodeInst, e1, e2]
    rw [if_neg (show ¬ fcode > 6 by omega)]
    exact encodeSwitch_isSome opcode h11 _ _ _ _
  · intro h6 h11
    simp only [EncodeInst, e1, e2]
    rw [if_neg (show ¬ fcode > 6 by omega)]
    exact encodeSwitch_none opcode h11 _ _ _ _

/-- Witness for claim C10: a concrete rejected fcode and the concrete
halt-with-fcode-3 encoding. -/
theorem claim10_witness :
    EncodeInst 0 9 0 0 0 = none ∧ EncodeInst halt 3 0 0 0 = some [3] :=
  ⟨(claim10_encodeInst_gates 0 9 0 0 0 (by decide) (by decide)).1 (by decide),
   (claim10_encodeInst_gates 0 3 0 0 0 (by decide) (by decide)).2.2.2⟩

end Y86
